import Mathlib

/-!
Shallow embedding of the MHD interface module (`mhd/interface.py`):
piecewise-linear reconstruction (`states`), the adiabatic HLLE Riemann
solver (`riemann_adiabatic` with `calc_evals` and `consFlux`), the
corner-EMF reconstruction (`emf`) and the magnetic-tension source term
(`sources`).

Grids are modelled as total functions `ℤ → ℤ → ℕ → ℝ` (cell index pair,
variable slot); the NumPy arrays of the source are zero-initialised, so a
cell that the loops never write is modelled as `0`.  Machine floats are
modelled as real numbers; `np.sqrt` is `Real.sqrt` and `np.sign` is
`Real.sign`.  NumPy slice assignments (last write wins) are modelled with
`Function.update` chains or reverse-ordered `if` tests.
-/

namespace Mhd

noncomputable section

/-- `smallc = 1.e-10`, the sound-speed floor of `riemann_adiabatic`. -/
def smallc : ℝ := 1e-10

/-- `smallp = 1.e-10`, the pressure floor of `riemann_adiabatic`. -/
def smallp : ℝ := 1e-10

/-- `consFlux(idir, gamma, idens, ixmom, iymom, iener, ixmag, iymag, irhoX,
naux, U_state)`: the conservative flux of one state vector
(`mhd/interface.py`, lines 364-425).  The sequence of slot assignments of
the source is modelled by a `Function.update` chain (last write wins),
with the trailing species-slice assignment layered on top. -/
def consFlux (idir : ℤ) (gamma : ℝ)
    (idens ixmom iymom iener ixmag iymag irhoX naux : ℕ)
    (U_state : ℕ → ℝ) : ℕ → ℝ :=
  let u := U_state ixmom / U_state idens
  let v := U_state iymom / U_state idens
  let bx := U_state ixmag
  let bY := U_state iymag
  let b2 := bx ^ 2 + bY ^ 2
  let p := (U_state iener - 0.5 * U_state idens * (u ^ 2 + v ^ 2) - 0.5 * b2) * (gamma - 1)
  if idir = 1 then
    let F1 := Function.update (fun _ => (0 : ℝ)) idens (U_state idens * u)
    let F2 := Function.update F1 ixmom (U_state ixmom * u + p + 0.5 * b2 - bx ^ 2)
    let F3 := Function.update F2 iymom (U_state iymom * u - bx * bY)
    let F4 := Function.update F3 iener ((U_state iener + p + 0.5 * b2) * u - bx * (bx * u + bY * v))
    let F5 := Function.update F4 ixmag 0
    let F6 := Function.update F5 iymag (bY * u - bx * v)
    fun n => if 0 < naux ∧ irhoX ≤ n ∧ n < irhoX + naux then U_state n * u else F6 n
  else
    let F1 := Function.update (fun _ => (0 : ℝ)) idens (U_state idens * v)
    let F2 := Function.update F1 ixmom (U_state ixmom * v - bx * bY)
    let F3 := Function.update F2 iymom (U_state iymom * v + p + 0.5 * b2 - bY ^ 2)
    let F4 := Function.update F3 iener ((U_state iener + p + 0.5 * b2) * v - bY * (bx * u + bY * v))
    let F5 := Function.update F4 ixmag (bx * v - bY * u)
    let F6 := Function.update F5 iymag 0
    fun n => if 0 < naux ∧ irhoX ≤ n ∧ n < irhoX + naux then U_state n * v else F6 n

/-- `calc_evals(idir, U, gamma, ...)`: the seven characteristic speeds of
the Roe-averaged state (`mhd/interface.py`, lines 316-361). -/
def calc_evals (idir : ℤ) (U : ℕ → ℝ) (gamma : ℝ)
    (idens ixmom iymom iener ixmag iymag : ℕ) (X Y : ℝ) : Fin 7 → ℝ :=
  let dens := U idens
  let u := U ixmom / U idens
  let v := U iymom / U idens
  let E := U iener
  let Bx := U ixmag
  let By := U iymag
  let bx := Bx / Real.sqrt (4 * Real.pi)
  let bY := By / Real.sqrt (4 * Real.pi)
  let b2 := bx ^ 2 + bY ^ 2
  let rhoe := E - 0.5 * dens * (u ^ 2 + v ^ 2) - 0.5 * b2
  let P := rhoe * (gamma - 1)
  let H := (E + P + 0.5 * b2) / dens
  let gamma_d := gamma - 1
  let X_d := (gamma - 2) * X
  let Y_d := (gamma - 2) * Y
  let a2 := gamma_d * (H - 0.5 * (u ^ 2 + v ^ 2) - b2 / dens) - X_d
  let CAx2 := if idir = 1 then bx ^ 2 / dens else bY ^ 2 / dens
  let b_norm2 := if idir = 1 then (gamma_d - Y_d) * bY ^ 2 else (gamma_d - Y_d) * bx ^ 2
  let CA2 := CAx2 + b_norm2 / dens
  let Cf2 := 0.5 * ((a2 + CA2) + Real.sqrt ((a2 + CA2) ^ 2 - 4 * a2 * CAx2))
  let Cs2 := 0.5 * ((a2 + CA2) - Real.sqrt ((a2 + CA2) ^ 2 - 4 * a2 * CAx2))
  let vx := if idir = 1 then u else v
  ![vx - Real.sqrt Cf2, vx - Real.sqrt CAx2, vx - Real.sqrt Cs2,
    vx, vx + Real.sqrt Cs2, vx + Real.sqrt CAx2, vx + Real.sqrt Cf2]

/-- `np.max` over the seven-entry eigenvalue array. -/
def npMax7 (e : Fin 7 → ℝ) : ℝ :=
  max (e 0) (max (e 1) (max (e 2) (max (e 3) (max (e 4) (max (e 5) (e 6))))))

/-- `np.min` over the seven-entry eigenvalue array. -/
def npMin7 (e : Fin 7 → ℝ) : ℝ :=
  min (e 0) (min (e 1) (min (e 2) (min (e 3) (min (e 4) (min (e 5) (e 6))))))

/-- The per-interface input of the `riemann_adiabatic` loop body: the
direction, the layout indices, the two interface state vectors
`U_l[i, j, :]`, `U_r[i, j, :]` and the face-centered field values
`Bx[i, j]`, `By[i, j]`. -/
structure RiemannArgs where
  idir : ℤ
  gamma : ℝ
  idens : ℕ
  ixmom : ℕ
  iymom : ℕ
  iener : ℕ
  ixmag : ℕ
  iymag : ℕ
  irhoX : ℕ
  nspec : ℕ
  U_l : ℕ → ℝ
  U_r : ℕ → ℝ
  Bx : ℝ
  By : ℝ

/-- `rho_l = U_l[i, j, idens]` (line 168). -/
def rho_l (a : RiemannArgs) : ℝ := a.U_l a.idens

/-- `rho_r = U_r[i, j, idens]` (line 202). -/
def rho_r (a : RiemannArgs) : ℝ := a.U_r a.idens

/-- Left normal velocity (lines 171-176). -/
def un_l (a : RiemannArgs) : ℝ :=
  if a.idir = 1 then a.U_l a.ixmom / rho_l a else a.U_l a.iymom / rho_l a

/-- Left transverse velocity (lines 171-176). -/
def ut_l (a : RiemannArgs) : ℝ :=
  if a.idir = 1 then a.U_l a.iymom / rho_l a else a.U_l a.ixmom / rho_l a

/-- Right normal velocity (lines 204-209). -/
def un_r (a : RiemannArgs) : ℝ :=
  if a.idir = 1 then a.U_r a.ixmom / rho_r a else a.U_r a.iymom / rho_r a

/-- Right transverse velocity (lines 204-209). -/
def ut_r (a : RiemannArgs) : ℝ :=
  if a.idir = 1 then a.U_r a.iymom / rho_r a else a.U_r a.ixmom / rho_r a

/-- `Bx_l` (lines 178-191): face value on an x-sweep, cell value otherwise. -/
def Bx_l (a : RiemannArgs) : ℝ := if a.idir = 1 then a.Bx else a.U_l a.ixmag

/-- `Bx_r` (lines 178-191). -/
def Bx_r (a : RiemannArgs) : ℝ := if a.idir = 1 then a.Bx else a.U_r a.ixmag

/-- `By_l` (lines 178-191). -/
def By_l (a : RiemannArgs) : ℝ := if a.idir = 1 then a.U_l a.iymag else a.By

/-- `By_r` (lines 178-191). -/
def By_r (a : RiemannArgs) : ℝ := if a.idir = 1 then a.U_r a.iymag else a.By

/-- `B2_l = Bx_l**2 + By_l**2` (line 193). -/
def B2_l (a : RiemannArgs) : ℝ := Bx_l a ^ 2 + By_l a ^ 2

/-- `B2_r = Bx_r**2 + By_r**2` (line 194). -/
def B2_r (a : RiemannArgs) : ℝ := Bx_r a ^ 2 + By_r a ^ 2

/-- `rhoe_l` (lines 196-197). -/
def rhoe_l (a : RiemannArgs) : ℝ :=
  a.U_l a.iener - 0.5 * rho_l a * (un_l a ^ 2 + ut_l a ^ 2) - 0.5 * B2_l a

/-- `rhoe_r` (lines 211-212). -/
def rhoe_r (a : RiemannArgs) : ℝ :=
  a.U_r a.iener - 0.5 * rho_r a * (un_r a ^ 2 + ut_r a ^ 2) - 0.5 * B2_r a

/-- Floored left pressure: `p_l = max(rhoe_l * (gamma - 1.0), smallp)`
(lines 199-200). -/
def p_l (a : RiemannArgs) : ℝ := max (rhoe_l a * (a.gamma - 1)) smallp

/-- Floored right pressure (lines 214-215). -/
def p_r (a : RiemannArgs) : ℝ := max (rhoe_r a * (a.gamma - 1)) smallp

/-- Floored left sound speed: `c_l = max(smallc, sqrt(gamma*p_l/rho_l))`
(line 218). -/
def c_l (a : RiemannArgs) : ℝ := max smallc (Real.sqrt (a.gamma * p_l a / rho_l a))

/-- Floored right sound speed (line 219). -/
def c_r (a : RiemannArgs) : ℝ := max smallc (Real.sqrt (a.gamma * p_r a / rho_r a))

/-- `bx_l = Bx_l / sqrt(4 pi)` (line 221). -/
def bx_l (a : RiemannArgs) : ℝ := Bx_l a / Real.sqrt (4 * Real.pi)

/-- `bx_r` (line 222). -/
def bx_r (a : RiemannArgs) : ℝ := Bx_r a / Real.sqrt (4 * Real.pi)

/-- `by_l` (line 223). -/
def by_l (a : RiemannArgs) : ℝ := By_l a / Real.sqrt (4 * Real.pi)

/-- `by_r` (line 224). -/
def by_r (a : RiemannArgs) : ℝ := By_r a / Real.sqrt (4 * Real.pi)

/-- Left Roe enthalpy `h_l` (lines 242-244). -/
def h_l (a : RiemannArgs) : ℝ :=
  (a.gamma * a.U_l a.iener -
    (a.gamma - 1) * (a.U_l a.ixmom ^ 2 + a.U_l a.iymom ^ 2) / rho_l a +
    0.5 * a.gamma * B2_l a) / rho_l a

/-- Right Roe enthalpy `h_r` (lines 246-248). -/
def h_r (a : RiemannArgs) : ℝ :=
  (a.gamma * a.U_r a.iener -
    (a.gamma - 1) * (a.U_r a.ixmom ^ 2 + a.U_r a.iymom ^ 2) / rho_r a +
    0.5 * a.gamma * B2_r a) / rho_r a

/-- The Roe-averaged primitive vector `q_av` (lines 232-257).  The source
fills a zero array slot by slot and then assigns the `[ixmag, iymag+1)`
and `[irhoX, ...)` slices; last write wins, so the tests appear here in
reverse order of the source assignments. -/
def q_av (a : RiemannArgs) : ℕ → ℝ := fun n =>
  if a.irhoX ≤ n then
    (a.U_l n / Real.sqrt (rho_l a) + a.U_r n / Real.sqrt (rho_r a)) /
      (Real.sqrt (rho_l a) + Real.sqrt (rho_r a))
  else if a.ixmag ≤ n ∧ n < a.iymag + 1 then
    (a.U_l n * Real.sqrt (rho_l a) + a.U_r n * Real.sqrt (rho_r a)) /
      (Real.sqrt (rho_l a) + Real.sqrt (rho_r a))
  else if n = a.iener then
    (h_l a * Real.sqrt (rho_l a) + h_r a * Real.sqrt (rho_r a)) /
      (Real.sqrt (rho_l a) + Real.sqrt (rho_r a))
  else if n = a.iymom then
    (a.U_l a.iymom / Real.sqrt (rho_l a) + a.U_r a.iymom / Real.sqrt (rho_r a)) /
      (Real.sqrt (rho_l a) + Real.sqrt (rho_r a))
  else if n = a.ixmom then
    (a.U_l a.ixmom / Real.sqrt (rho_l a) + a.U_r a.ixmom / Real.sqrt (rho_r a)) /
      (Real.sqrt (rho_l a) + Real.sqrt (rho_r a))
  else if n = a.idens then Real.sqrt (rho_l a * rho_r a)
  else 0

/-- The Roe-averaged conservative vector `U_av` (lines 259-268). -/
def U_av (a : RiemannArgs) : ℕ → ℝ := fun n =>
  if a.irhoX ≤ n then q_av a a.idens * q_av a n
  else if a.ixmag ≤ n ∧ n < a.iymag + 1 then q_av a n
  else if n = a.iener then
    (q_av a a.iener * q_av a a.idens +
      (a.gamma - 1) * q_av a a.idens * (q_av a a.ixmom ^ 2 + q_av a a.iymom ^ 2) -
      0.5 * a.gamma * (q_av a a.ixmag ^ 2 + q_av a a.iymag ^ 2)) / a.gamma
  else if n = a.iymom then q_av a a.idens * q_av a a.iymom
  else if n = a.ixmom then q_av a a.idens * q_av a a.ixmom
  else if n = a.idens then q_av a a.idens
  else 0

/-- The Roe correction scalar `X` (lines 270-273). -/
def X (a : RiemannArgs) : ℝ :=
  if a.idir = 1 then 0.5 * (by_l a - by_r a) ^ 2 / (Real.sqrt (rho_l a) + Real.sqrt (rho_r a))
  else 0.5 * (bx_l a - bx_r a) ^ 2 / (Real.sqrt (rho_l a) + Real.sqrt (rho_r a))

/-- The Roe correction scalar `Y` (line 275). -/
def Y (a : RiemannArgs) : ℝ := 0.5 * (rho_l a + rho_r a) / U_av a a.idens

/-- The seven eigenvalues of one interface (lines 277-278). -/
def evals (a : RiemannArgs) : Fin 7 → ℝ :=
  calc_evals a.idir (U_av a) a.gamma a.idens a.ixmom a.iymom a.iener a.ixmag a.iymag
    (X a) (Y a)

/-- `cA2` evaluated on the left state (line 282). -/
def cA2_l (a : RiemannArgs) : ℝ := (bx_l a ^ 2 + by_l a ^ 2) / rho_l a

/-- `cAx2` evaluated on the left state (lines 284-287). -/
def cAx2_l (a : RiemannArgs) : ℝ :=
  if a.idir = 1 then bx_l a ^ 2 / rho_l a else by_l a ^ 2 / rho_l a

/-- `cA2` evaluated on the right state (line 292). -/
def cA2_r (a : RiemannArgs) : ℝ := (bx_r a ^ 2 + by_r a ^ 2) / rho_r a

/-- `cAx2` evaluated on the right state (lines 294-297). -/
def cAx2_r (a : RiemannArgs) : ℝ :=
  if a.idir = 1 then bx_r a ^ 2 / rho_r a else by_r a ^ 2 / rho_r a

/-- Left fast magnetosonic speed `cf_l` (lines 289-290). -/
def cf_l (a : RiemannArgs) : ℝ :=
  Real.sqrt (0.5 * (c_l a ^ 2 + cA2_l a +
    Real.sqrt ((c_l a ^ 2 + cA2_l a) ^ 2 - 4 * c_l a ^ 2 * cAx2_l a)))

/-- Right fast magnetosonic speed `cf_r` (lines 299-300). -/
def cf_r (a : RiemannArgs) : ℝ :=
  Real.sqrt (0.5 * (c_r a ^ 2 + cA2_r a +
    Real.sqrt ((c_r a ^ 2 + cA2_r a) ^ 2 - 4 * c_r a ^ 2 * cAx2_r a)))

/-- Upper HLLE signal speed
`bp = max(max(np.max(evals), un_r + cf_r), 0)` (line 302). -/
def bp (a : RiemannArgs) : ℝ := max (max (npMax7 (evals a)) (un_r a + cf_r a)) 0

/-- Lower HLLE signal speed
`bm = min(min(np.min(evals), un_l - cf_l), 0)` (line 303). -/
def bm (a : RiemannArgs) : ℝ := min (min (npMin7 (evals a)) (un_l a - cf_l a)) 0

/-- `f_l = consFlux(..., U_l[i, j, :])` (lines 305-306). -/
def f_l (a : RiemannArgs) : ℕ → ℝ :=
  consFlux a.idir a.gamma a.idens a.ixmom a.iymom a.iener a.ixmag a.iymag a.irhoX
    a.nspec a.U_l

/-- `f_r = consFlux(..., U_r[i, j, :])` (lines 307-308). -/
def f_r (a : RiemannArgs) : ℕ → ℝ :=
  consFlux a.idir a.gamma a.idens a.ixmom a.iymom a.iener a.ixmag a.iymag a.irhoX
    a.nspec a.U_r

/-- The HLLE flux blend written to `F[i, j, :]` (lines 310-311). -/
def Fcell (a : RiemannArgs) : ℕ → ℝ := fun n =>
  (bp a * f_l a n - bm a * f_r a n) / (bp a - bm a) +
    bp a * bm a / (bp a - bm a) * (a.U_r n - a.U_l n)

/-- `riemann_adiabatic` (lines 141-313): one HLLE flux vector per cell of
the loop range `[ilo-2, ihi+2) x [jlo-2, jhi+2)`; cells outside the range
keep the zero initialisation of `F`.  The solid-wall flags are accepted
exactly as in the source, whose loop body never reads them. -/
def riemann_adiabatic (idir ng : ℤ)
    (idens ixmom iymom iener ixmag iymag irhoX nspec : ℕ)
    (lower_solid upper_solid : Bool) (gamma : ℝ) (qx qy : ℤ)
    (U_l U_r : ℤ → ℤ → ℕ → ℝ) (Bx By : ℤ → ℤ → ℝ) : ℤ → ℤ → ℕ → ℝ :=
  fun i j n =>
    if ng - 2 ≤ i ∧ i < qx - ng + 2 ∧ ng - 2 ≤ j ∧ j < qy - ng + 2 then
      Fcell ⟨idir, gamma, idens, ixmom, iymom, iener, ixmag, iymag, irhoX, nspec,
        U_l i j, U_r i j, Bx i j, By i j⟩ n
    else 0

/-- Backward difference `dq_l` of `states` (lines 108-115): the slice
assignment fills only the in-band indices `[1, qx-2]` (resp. `[1, qy-2]`)
along the sweep axis; the rest keeps the zero initialisation. -/
def dq_l (idir qx qy : ℤ) (qv : ℤ → ℤ → ℕ → ℝ) (i j : ℤ) (v : ℕ) : ℝ :=
  if idir = 1 then
    (if 1 ≤ i ∧ i ≤ qx - 2 then qv i j v - qv (i - 1) j v else 0)
  else
    (if 1 ≤ j ∧ j ≤ qy - 2 then qv i j v - qv i (j - 1) v else 0)

/-- Forward difference `dq_r` of `states` (lines 108-115). -/
def dq_r (idir qx qy : ℤ) (qv : ℤ → ℤ → ℕ → ℝ) (i j : ℤ) (v : ℕ) : ℝ :=
  if idir = 1 then
    (if 1 ≤ i ∧ i ≤ qx - 2 then qv (i + 1) j v - qv i j v else 0)
  else
    (if 1 ≤ j ∧ j ≤ qy - 2 then qv i (j + 1) v - qv i j v else 0)

/-- Centered difference `dq_c` of `states` (lines 108-115). -/
def dq_c (idir qx qy : ℤ) (qv : ℤ → ℤ → ℕ → ℝ) (i j : ℤ) (v : ℕ) : ℝ :=
  if idir = 1 then
    (if 1 ≤ i ∧ i ≤ qx - 2 then 0.5 * (qv (i + 1) j v - qv (i - 1) j v) else 0)
  else
    (if 1 ≤ j ∧ j ≤ qy - 2 then 0.5 * (qv i (j + 1) v - qv i (j - 1) v) else 0)

/-- The monotonicity-constrained slope of `states` (lines 119-120):
`dq = np.sign(dq_c) * np.minimum(2*np.abs(dq_l), np.minimum(2*np.abs(dq_r), np.abs(dq_c)))`. -/
def limslope (dl dr dc : ℝ) : ℝ :=
  Real.sign dc * min (2 * |dl|) (min (2 * |dr|) |dc|)

/-- The limited slope array `dq` of `states` after the longitudinal
magnetic-field component is forced to zero (lines 117-126). -/
def dq (idir : ℤ) (ibx iby : ℕ) (qx qy : ℤ) (qv : ℤ → ℤ → ℕ → ℝ)
    (i j : ℤ) (v : ℕ) : ℝ :=
  if (idir = 1 ∧ v = ibx) ∨ (idir ≠ 1 ∧ v = iby) then 0
  else limslope (dq_l idir qx qy qv i j v) (dq_r idir qx qy qv i j v)
    (dq_c idir qx qy qv i j v)

/-- `states` (lines 5-138): left and right interface-state fields.  The
loop over `[ilo-3, ihi+3) x [jlo-3, jhi+3)` writes
`q_l[i+1, j] = qv[i, j] + dq[i, j]/2` and `q_r[i, j] = qv[i, j] - dq[i, j]/2`
for an x-sweep (transposed roles for a y-sweep); unwritten cells keep the
zero initialisation.  As in the source, `dx`, `dt`, `gamma`, `Bx`, `By`
and the non-field layout indices are accepted but not read. -/
def states (idir ng : ℤ) (dx dt : ℝ) (irho iu iv ip ibx iby ix nspec : ℕ)
    (gamma : ℝ) (qx qy : ℤ) (qv : ℤ → ℤ → ℕ → ℝ) (Bx By : ℤ → ℤ → ℝ) :
    (ℤ → ℤ → ℕ → ℝ) × (ℤ → ℤ → ℕ → ℝ) :=
  (fun i j v =>
    if idir = 1 then
      (if ng - 3 ≤ i - 1 ∧ i - 1 < qx - ng + 3 ∧ ng - 3 ≤ j ∧ j < qy - ng + 3 then
        qv (i - 1) j v + 0.5 * dq idir ibx iby qx qy qv (i - 1) j v
      else 0)
    else
      (if ng - 3 ≤ i ∧ i < qx - ng + 3 ∧ ng - 3 ≤ j - 1 ∧ j - 1 < qy - ng + 3 then
        qv i (j - 1) v + 0.5 * dq idir ibx iby qx qy qv i (j - 1) v
      else 0),
   fun i j v =>
    if ng - 3 ≤ i ∧ i < qx - ng + 3 ∧ ng - 3 ≤ j ∧ j < qy - ng + 3 then
      qv i j v - 0.5 * dq idir ibx iby qx qy qv i j v
    else 0)

/-- The cell-centered reference EMF `Er` of `emf` (lines 465-472). -/
def Er (idens ixmom iymom ixmag iymag : ℕ) (U : ℤ → ℤ → ℕ → ℝ)
    (Eref : ℤ → ℤ → ℝ) (use_ref : Bool) : ℤ → ℤ → ℝ :=
  fun i j =>
    if use_ref then Eref i j
    else -(U i j ixmom / U i j idens * U i j iymag -
      U i j iymom / U i j idens * U i j ixmag)

/-- The x-edge EMF of `emf`: `Ex[:, :] = -Fx[:, :, iymag]` (line 475). -/
def Ex (iymag : ℕ) (Fx : ℤ → ℤ → ℕ → ℝ) : ℤ → ℤ → ℝ :=
  fun i j => -(Fx i j iymag)

/-- The y-edge EMF of `emf`: `Ey[:, :] = Fy[:, :, ixmag]` (line 476). -/
def Ey (ixmag : ℕ) (Fy : ℤ → ℤ → ℕ → ℝ) : ℤ → ℤ → ℝ :=
  fun i j => Fy i j ixmag

/-- `emf` (lines 428-532): the corner EMF `Ec`.  The quarter-offset slope
arrays are filled on `[ilo-3, ihi+3) x [jlo-3, jhi+3)` and are zero
elsewhere; the corner loop runs on `[ilo-2, ihi+2) x [jlo-2, jhi+2)` with
upwind slope selection by the sign of the adjacent mass fluxes. -/
def emf (ng : ℤ) (idens ixmom iymom iener ixmag iymag irhoX : ℕ)
    (dx dy : ℝ) (qx qy : ℤ) (U Fx Fy : ℤ → ℤ → ℕ → ℝ)
    (Eref : ℤ → ℤ → ℝ) (use_ref : Bool) : ℤ → ℤ → ℝ :=
  let ErA := Er idens ixmom iymom ixmag iymag U Eref use_ref
  let ExA := Ex iymag Fx
  let EyA := Ey ixmag Fy
  let inDeriv : ℤ → ℤ → Prop := fun i j =>
    ng - 3 ≤ i ∧ i < qx - ng + 3 ∧ ng - 3 ≤ j ∧ j < qy - ng + 3
  let dEdy_14 : ℤ → ℤ → ℝ := fun i j =>
    if inDeriv i j then 2 * (ErA i j - EyA i j) / dy else 0
  let dEdx_14 : ℤ → ℤ → ℝ := fun i j =>
    if inDeriv i j then 2 * (ErA i j - ExA i j) / dx else 0
  let dEdy_34 : ℤ → ℤ → ℝ := fun i j =>
    if inDeriv i j then 2 * (EyA i j - ErA i (j - 1)) / dy else 0
  let dEdx_34 : ℤ → ℤ → ℝ := fun i j =>
    if inDeriv i j then 2 * (ExA i j - ErA (i - 1) j) / dx else 0
  fun i j =>
    if ng - 2 ≤ i ∧ i < qx - ng + 2 ∧ ng - 2 ≤ j ∧ j < qy - ng + 2 then
      let ru1 := Fx i j idens
      let dEdyx_14 :=
        if ru1 > 0 then dEdy_14 (i - 1) j
        else if ru1 < 0 then dEdy_14 i j
        else 0.5 * (dEdy_14 (i - 1) j + dEdy_14 i j)
      let ru2 := Fx i (j - 1) idens
      let dEdyx_34 :=
        if ru2 > 0 then dEdy_34 (i - 1) j
        else if ru2 < 0 then dEdy_34 i j
        else 0.5 * (dEdy_34 (i - 1) j + dEdy_34 i j)
      let rv1 := Fy i j idens
      let dEdxy_14 :=
        if rv1 > 0 then dEdx_14 i (j - 1)
        else if rv1 < 0 then dEdx_14 i j
        else 0.5 * (dEdx_14 i (j - 1) + dEdx_14 i j)
      let rv2 := Fy (i - 1) j idens
      let dEdxy_34 :=
        if rv2 > 0 then dEdx_34 i (j - 1)
        else if rv2 < 0 then dEdx_34 i j
        else 0.5 * (dEdx_34 i (j - 1) + dEdx_34 i j)
      0.25 * (ExA i j + ExA i (j + 1) + EyA i j + EyA (i + 1) j) +
        0.125 * dy * (dEdyx_14 - dEdyx_34) +
        0.125 * dx * (dEdxy_14 - dEdxy_34)
    else 0

/-- `sources` (lines 536-567): the magnetic-tension momentum source.  The
loop range `range(ilo - ng + 1, ihi + ng - 1)` is `[1, qx - 1)` (and
`[1, qy - 1)` in `j`); the two momentum slots are written in source order,
modelled by a `Function.update` chain. -/
def sources (idir ng : ℤ) (idens ixmom iymom iener ixmag iymag irhoX : ℕ)
    (dx : ℝ) (qx qy : ℤ) (U Ux : ℤ → ℤ → ℕ → ℝ) : ℤ → ℤ → ℕ → ℝ :=
  fun i j =>
    if 1 ≤ i ∧ i < qx - 1 ∧ 1 ≤ j ∧ j < qy - 1 then
      if idir = 1 then
        Function.update
          (Function.update (fun _ => (0 : ℝ)) ixmom
            (U i j ixmag * (Ux (i + 1) j ixmag - Ux i j ixmag) / dx))
          iymom (U i j iymag * (Ux (i + 1) j ixmag - Ux i j ixmag) / dx)
      else
        Function.update
          (Function.update (fun _ => (0 : ℝ)) ixmom
            (U i j ixmag * (Ux i (j + 1) iymag - Ux i j iymag) / dx))
          iymom (U i j iymag * (Ux i (j + 1) iymag - Ux i j iymag) / dx)
    else fun _ => 0

/-! ### Sample inputs used by the witnesses -/

/-- A concrete conservative state field (standard layout `0..6`):
density `2` in slot `0`, total energy `1` in slot `3`, all else `0`. -/
def UlSample : ℤ → ℤ → ℕ → ℝ := fun _ _ n => if n = 0 then 2 else if n = 3 then 1 else 0

/-- The per-interface argument pack built from `UlSample` at cell `(4,4)`,
x-sweep, `gamma = 2`, zero face fields. -/
def aSample : RiemannArgs :=
  ⟨1, 2, 0, 1, 2, 3, 4, 5, 6, 0, UlSample 4 4, UlSample 4 4, 0, 0⟩

/-- A cell field whose magnetic slots differ: `Bx`-slot (4) value `1`,
`By`-slot (5) value `2`. -/
def Usample2 : ℤ → ℤ → ℕ → ℝ := fun _ _ v => if v = 4 then 1 else if v = 5 then 2 else 0

/-- An interface field whose `Bx`-slot value equals the `i` index, so the
interface difference of the normal field is `1`. -/
def UxSample : ℤ → ℤ → ℕ → ℝ := fun i _ v => if v = 4 then (i : ℝ) else 0

/-- An x-flux field with transverse-field slot (5) equal to `1`. -/
def FxSample : ℤ → ℤ → ℕ → ℝ := fun _ _ v => if v = 5 then 1 else 0

/-- A y-flux field that is identically zero. -/
def FySample : ℤ → ℤ → ℕ → ℝ := fun _ _ _ => 0

/-- The uniform primitive state used by the reconstruction witness. -/
def q0Sample : ℕ → ℝ := fun _ => 3

/-- A spatially uniform primitive field. -/
def qvSample : ℤ → ℤ → ℕ → ℝ := fun _ _ => q0Sample

/-! ### Helper lemmas -/

/-- The floored sound speed is strictly positive. -/
theorem c_l_pos (a : RiemannArgs) : 0 < c_l a :=
  lt_of_lt_of_le (by norm_num [smallc]) (le_max_left _ _)

/-- Algebraic core of the fast-speed bound: for `0 ≤ c` and
`0 ≤ K ≤ A`, the fast-magnetosonic formula dominates `c`. -/
theorem c_le_cf_aux (c A K : ℝ) (hc : 0 ≤ c) (hK : 0 ≤ K) (hKA : K ≤ A) :
    c ≤ Real.sqrt (0.5 * (c ^ 2 + A + Real.sqrt ((c ^ 2 + A) ^ 2 - 4 * c ^ 2 * K))) := by
  have hd : (c ^ 2 - A) ^ 2 ≤ (c ^ 2 + A) ^ 2 - 4 * c ^ 2 * K := by
    nlinarith [mul_nonneg (sq_nonneg c) (sub_nonneg.mpr hKA)]
  have h1 : c ^ 2 - A ≤ Real.sqrt ((c ^ 2 + A) ^ 2 - 4 * c ^ 2 * K) :=
    calc c ^ 2 - A ≤ |c ^ 2 - A| := le_abs_self _
      _ = Real.sqrt ((c ^ 2 - A) ^ 2) := (Real.sqrt_sq_eq_abs _).symm
      _ ≤ _ := Real.sqrt_le_sqrt hd
  have h2 : c ^ 2 ≤ 0.5 * (c ^ 2 + A + Real.sqrt ((c ^ 2 + A) ^ 2 - 4 * c ^ 2 * K)) := by
    linarith
  calc c = Real.sqrt (c ^ 2) := (Real.sqrt_sq hc).symm
    _ ≤ _ := Real.sqrt_le_sqrt h2

/-- For positive density the left normal Alfvén speed squared is
nonnegative. -/
theorem cAx2_l_nonneg (a : RiemannArgs) (hρ : 0 < rho_l a) : 0 ≤ cAx2_l a := by
  unfold cAx2_l
  split <;> exact div_nonneg (sq_nonneg _) hρ.le

/-- For positive density the left normal Alfvén speed squared is bounded
by the total Alfvén speed squared. -/
theorem cAx2_l_le_cA2_l (a : RiemannArgs) (hρ : 0 < rho_l a) : cAx2_l a ≤ cA2_l a := by
  unfold cAx2_l cA2_l
  split
  · exact (div_le_div_iff_of_pos_right hρ).mpr (by nlinarith [sq_nonneg (by_l a)])
  · exact (div_le_div_iff_of_pos_right hρ).mpr (by nlinarith [sq_nonneg (bx_l a)])

/-- For positive left density the left fast magnetosonic speed dominates
the floored sound speed. -/
theorem c_l_le_cf_l (a : RiemannArgs) (hρ : 0 < rho_l a) : c_l a ≤ cf_l a :=
  c_le_cf_aux (c_l a) (cA2_l a) (cAx2_l a) (c_l_pos a).le
    (cAx2_l_nonneg a hρ) (cAx2_l_le_cA2_l a hρ)

/-- Consistency of the HLLE blend: when the two interface states agree
(and the left density is positive), the blended flux collapses to the
one-state conservative flux. -/
theorem Fcell_eq_f_l (a : RiemannArgs) (h : a.U_l = a.U_r) (hρ : 0 < rho_l a)
    (n : ℕ) : Fcell a n = f_l a n := by
  have hun : un_r a = un_l a := by
    simp only [un_r, un_l, rho_r, rho_l, h]
  have hcf : cf_r a = cf_l a := by
    simp only [cf_r, cf_l, c_r, c_l, p_r, p_l, rhoe_r, rhoe_l, rho_r, rho_l,
      un_r, un_l, ut_r, ut_l, B2_r, B2_l, Bx_r, Bx_l, By_r, By_l,
      cA2_r, cA2_l, cAx2_r, cAx2_l, bx_r, bx_l, by_r, by_l, h]
  have hf : f_r a = f_l a := by
    simp only [f_r, f_l, h]
  have hz : a.U_r n - a.U_l n = 0 := by rw [h, sub_self]
  have hcl : c_l a ≤ cf_l a := c_l_le_cf_l a hρ
  have hcf0 : 0 < cf_l a := lt_of_lt_of_le (c_l_pos a) hcl
  have hbp0 : 0 ≤ bp a := le_max_right _ _
  have hbm0 : bm a ≤ 0 := min_le_right _ _
  have hbp1 : un_l a + cf_l a ≤ bp a := by
    calc un_l a + cf_l a = un_r a + cf_r a := by rw [hun, hcf]
      _ ≤ max (npMax7 (evals a)) (un_r a + cf_r a) := le_max_right _ _
      _ ≤ bp a := le_max_left _ _
  have hbm1 : bm a ≤ un_l a - cf_l a :=
    (min_le_left _ 0).trans (min_le_right _ _)
  have hne : 0 < bp a - bm a := by
    rcases le_or_lt 0 (un_l a) with hu | hu
    · have : 0 < bp a := lt_of_lt_of_le (by linarith) hbp1
      linarith
    · have : bm a < 0 := lt_of_le_of_lt hbm1 (by linarith)
      linarith
  simp only [Fcell]
  rw [hf, hz, mul_zero, add_zero, div_eq_iff (ne_of_gt hne)]
  ring

/-! ### Claim theorems -/

/-- C2: HLLE bound invariant — the signal-speed bounds of
`riemann_adiabatic` always satisfy `bp ≥ 0` and `bm ≤ 0`, since each is
clipped against `0` (here proved for every input, not only physically
valid ones). -/
theorem hlle_signal_speed_bounds (a : RiemannArgs) : 0 ≤ bp a ∧ bm a ≤ 0 :=
  ⟨le_max_right _ _, min_le_right _ _⟩

/-- C2 witness at the concrete interface pack `aSample`. -/
theorem hlle_signal_speed_bounds_witness : 0 ≤ bp aSample ∧ bm aSample ≤ 0 :=
  hlle_signal_speed_bounds aSample

/-- C5: pressure/sound-speed flooring in `riemann_adiabatic` — the used
pressures are `max(computed, 1e-10)` and the used sound speeds are
`max(1e-10, sqrt(gamma*p/rho))`; all four are at least `1e-10`, and each
equals its unfloored value whenever that value reaches the floor.  The
embedding is total, matching the claim that no error is signalled. -/
theorem riemann_pressure_sound_floors (a : RiemannArgs) :
    smallp ≤ p_l a ∧ smallp ≤ p_r a ∧ smallc ≤ c_l a ∧ smallc ≤ c_r a ∧
    (smallp ≤ rhoe_l a * (a.gamma - 1) → p_l a = rhoe_l a * (a.gamma - 1)) ∧
    (smallp ≤ rhoe_r a * (a.gamma - 1) → p_r a = rhoe_r a * (a.gamma - 1)) ∧
    (smallc ≤ Real.sqrt (a.gamma * p_l a / rho_l a) →
      c_l a = Real.sqrt (a.gamma * p_l a / rho_l a)) ∧
    (smallc ≤ Real.sqrt (a.gamma * p_r a / rho_r a) →
      c_r a = Real.sqrt (a.gamma * p_r a / rho_r a)) :=
  ⟨le_max_right _ _, le_max_right _ _, le_max_left _ _, le_max_left _ _,
    fun h => max_eq_left h, fun h => max_eq_left h,
    fun h => max_eq_right h, fun h => max_eq_right h⟩

/-- C5 witness: at `aSample` the computed pressure is `1` and the raw
sound speed is `1`, both above the floor, so the floored values coincide
with the raw ones and satisfy the bounds. -/
theorem riemann_pressure_sound_floors_witness :
    smallp ≤ p_l aSample ∧ smallc ≤ c_l aSample ∧
    p_l aSample = rhoe_l aSample * (aSample.gamma - 1) ∧
    c_l aSample = Real.sqrt (aSample.gamma * p_l aSample / rho_l aSample) := by
  have h := riemann_pressure_sound_floors aSample
  have hraw : rhoe_l aSample * (aSample.gamma - 1) = 1 := by
    simp [rhoe_l, rho_l, un_l, ut_l, B2_l, Bx_l, By_l, aSample, UlSample]
    norm_num
  have hpl : p_l aSample = 1 := by
    rw [p_l, hraw]
    exact max_eq_left (by norm_num [smallp])
  have harg : aSample.gamma * p_l aSample / rho_l aSample = 1 := by
    rw [hpl]
    norm_num [rho_l, aSample, UlSample]
  refine ⟨h.1, h.2.2.1, h.2.2.2.2.1 ?_, h.2.2.2.2.2.2.1 ?_⟩
  · rw [hraw]; norm_num [smallp]
  · rw [harg, Real.sqrt_one]; norm_num [smallc]

/-- Sign and bound facts for the Stone–Gardiner limiter formula. -/
theorem limslope_props (dl dr dc : ℝ) :
    0 ≤ limslope dl dr dc * dc ∧ (dc = 0 → limslope dl dr dc = 0) ∧
      |limslope dl dr dc| ≤ min (2 * |dl|) (min (2 * |dr|) |dc|) := by
  have hm : 0 ≤ min (2 * |dl|) (min (2 * |dr|) |dc|) :=
    le_min (by positivity) (le_min (by positivity) (abs_nonneg _))
  refine ⟨?_, ?_, ?_⟩
  · rcases lt_trichotomy dc 0 with h | h | h
    · rw [limslope, Real.sign_of_neg h]
      nlinarith [mul_nonneg hm (by linarith : (0:ℝ) ≤ -dc)]
    · subst h
      simp [limslope]
    · rw [limslope, Real.sign_of_pos h]
      nlinarith [mul_nonneg hm h.le]
  · intro h
    subst h
    simp [limslope]
  · rw [limslope, abs_mul, abs_of_nonneg hm]
    rcases lt_trichotomy dc 0 with h | h | h
    · rw [Real.sign_of_neg h]
      norm_num
    · subst h
      simp [Real.sign_zero, hm]
    · rw [Real.sign_of_pos h]
      norm_num

/-- C7: limiter bound — for any three consecutive cell values `a b c`
along the sweep axis, the limited slope computed by `states` (the
`limslope` of the backward, forward and centered differences) never has
the opposite sign of the centered difference, vanishes when the centered
difference does, and is bounded in magnitude by
`min(2|backward|, 2|forward|, |centered|)`. -/
theorem limited_slope_sign_and_bound (a b c : ℝ) :
    0 ≤ limslope (b - a) (c - b) (0.5 * (c - a)) * (0.5 * (c - a)) ∧
    (0.5 * (c - a) = 0 → limslope (b - a) (c - b) (0.5 * (c - a)) = 0) ∧
    |limslope (b - a) (c - b) (0.5 * (c - a))| ≤
      min (2 * |b - a|) (min (2 * |c - b|) |0.5 * (c - a)|) :=
  limslope_props (b - a) (c - b) (0.5 * (c - a))

/-- C7 witness: three equal consecutive values give a zero limited
slope. -/
theorem limited_slope_sign_and_bound_witness :
    limslope ((3:ℝ) - 3) (3 - 3) (0.5 * (3 - 3)) = 0 :=
  (limited_slope_sign_and_bound 3 3 3).2.1 (by norm_num)

/-- C8: the `consFlux` component in the sweep-normal magnetic-field slot
(`ixmag` for an x-sweep, `iymag` otherwise) is exactly zero, for any
state, adiabatic index and species count, provided the layout slots do
not collide (`ixmag ≠ iymag` and neither field slot lies in the species
slice). -/
theorem consFlux_normal_field_zero (idir : ℤ) (gamma : ℝ)
    (idens ixmom iymom iener ixmag iymag irhoX naux : ℕ) (U_state : ℕ → ℝ)
    (hxy : ixmag ≠ iymag)
    (hxs : ¬(irhoX ≤ ixmag ∧ ixmag < irhoX + naux))
    (hys : ¬(irhoX ≤ iymag ∧ iymag < irhoX + naux)) :
    (idir = 1 →
      consFlux idir gamma idens ixmom iymom iener ixmag iymag irhoX naux U_state ixmag = 0) ∧
    (idir ≠ 1 →
      consFlux idir gamma idens ixmom iymom iener ixmag iymag irhoX naux U_state iymag = 0) := by
  constructor <;> intro h <;>
    simp [consFlux, h, Function.update_apply, hxy, hxs, hys]

/-- C8 witness at the standard layout `0..6` with no species, x-sweep. -/
theorem consFlux_normal_field_zero_witness :
    consFlux 1 2 0 1 2 3 4 5 6 0 (UlSample 4 4) 4 = 0 :=
  (consFlux_normal_field_zero 1 2 0 1 2 3 4 5 6 0 (UlSample 4 4)
    (by norm_num) (by norm_num) (by norm_num)).1 rfl

/-- C9: the solid-wall flags of `riemann_adiabatic` are inert — two runs
differing only in `lower_solid`/`upper_solid` return identical flux
arrays, because the loop body never reads the flags. -/
theorem riemann_solid_flags_inert (idir ng : ℤ)
    (idens ixmom iymom iener ixmag iymag irhoX nspec : ℕ)
    (ls us ls' us' : Bool) (gamma : ℝ) (qx qy : ℤ)
    (U_l U_r : ℤ → ℤ → ℕ → ℝ) (Bx By : ℤ → ℤ → ℝ) :
    riemann_adiabatic idir ng idens ixmom iymom iener ixmag iymag irhoX nspec
      ls us gamma qx qy U_l U_r Bx By =
    riemann_adiabatic idir ng idens ixmom iymom iener ixmag iymag irhoX nspec
      ls' us' gamma qx qy U_l U_r Bx By := rfl

/-- C10: with `use_ref = true` the corner EMF of `emf` does not depend on
the cell-centered state `U` — two runs agreeing on `Eref`, the fluxes,
the spacings and the shape return identical corner arrays. -/
theorem emf_use_ref_ignores_U (ng : ℤ)
    (idens ixmom iymom iener ixmag iymag irhoX : ℕ) (dx dy : ℝ) (qx qy : ℤ)
    (U Uother Fx Fy : ℤ → ℤ → ℕ → ℝ) (Eref : ℤ → ℤ → ℝ) :
    emf ng idens ixmom iymom iener ixmag iymag irhoX dx dy qx qy U Fx Fy Eref true =
    emf ng idens ixmom iymom iener ixmag iymag irhoX dx dy qx qy Uother Fx Fy Eref true := rfl

/-- C3 counterexample: with layout `ixmag = 4`, `iymag = 5`, the edge EMF
the code computes at cell `(0,0)` is `Ex = -Fx[0,0,iymag] = -1`, while
minus the magnetic-slot components of the y-direction flux field (here
`Fy ≡ 0`) are `0` — so `E_x-edge = -F_y[normal-field]` fails under either
reading of the normal-field slot. -/
theorem emf_edge_extraction_counterexample :
    Ex 5 FxSample 0 0 ≠ -(FySample 0 0 5) ∧ Ex 5 FxSample 0 0 ≠ -(FySample 0 0 4) := by
  constructor <;> · simp [Ex, FxSample, FySample]

/-- C3 amended: each edge EMF is read from its **own** direction's flux
field — `E_x-edge = -F_x[transverse-field]` and
`E_y-edge = F_y[transverse-field]` (the transverse-field slot of an
x-sweep flux is `iymag`, of a y-sweep flux is `ixmag`). -/
theorem emf_edge_extraction (ixmag iymag : ℕ) (Fx Fy : ℤ → ℤ → ℕ → ℝ) (i j : ℤ) :
    Ex iymag Fx i j = -(Fx i j iymag) ∧ Ey ixmag Fy i j = Fy i j ixmag :=
  ⟨rfl, rfl⟩

/-- C4 counterexample: with `B_x,cell = 1` and `B_y,cell = 2` and an
interface normal-field difference of `1`, the y-momentum source entry is
`2`, not the claimed common value `B_normal,cell * ΔB_normal / dx = 1`. -/
theorem sources_identical_scalar_counterexample :
    sources 1 4 0 1 2 3 4 5 6 1 9 9 Usample2 UxSample 4 4 2 ≠
      Usample2 4 4 4 * (UxSample 5 4 4 - UxSample 4 4 4) / 1 := by
  simp [sources, Usample2, UxSample, Function.update_apply]
  norm_num

/-- C4 amended: in the computed range `[1, qx-1) × [1, qy-1)` and for
either sweep direction, the two momentum entries share the interface
normal-field difference factor `ΔB_normal/dx`, but the x-momentum entry
is scaled by the cell's `B_x` and the y-momentum entry by the cell's
`B_y` — they coincide only when those two cell field components do. -/
theorem sources_momentum_components (idir ng : ℤ)
    (idens ixmom iymom iener ixmag iymag irhoX : ℕ) (dx : ℝ) (qx qy : ℤ)
    (U Ux : ℤ → ℤ → ℕ → ℝ) (i j : ℤ)
    (hin : 1 ≤ i ∧ i < qx - 1 ∧ 1 ≤ j ∧ j < qy - 1) (hmom : ixmom ≠ iymom) :
    (idir = 1 →
      sources idir ng idens ixmom iymom iener ixmag iymag irhoX dx qx qy U Ux i j ixmom
        = U i j ixmag * (Ux (i + 1) j ixmag - Ux i j ixmag) / dx ∧
      sources idir ng idens ixmom iymom iener ixmag iymag irhoX dx qx qy U Ux i j iymom
        = U i j iymag * (Ux (i + 1) j ixmag - Ux i j ixmag) / dx) ∧
    (idir ≠ 1 →
      sources idir ng idens ixmom iymom iener ixmag iymag irhoX dx qx qy U Ux i j ixmom
        = U i j ixmag * (Ux i (j + 1) iymag - Ux i j iymag) / dx ∧
      sources idir ng idens ixmom iymom iener ixmag iymag irhoX dx qx qy U Ux i j iymom
        = U i j iymag * (Ux i (j + 1) iymag - Ux i j iymag) / dx) := by
  constructor <;> intro h <;>
    constructor <;>
      simp [sources, hin.1, hin.2.1, hin.2.2.1, hin.2.2.2, h,
        Function.update_apply, hmom]

/-- C4 amended-claim witness at the concrete fields of the
counterexample. -/
theorem sources_momentum_components_witness :
    ((1:ℤ) = 1 →
      sources 1 4 0 1 2 3 4 5 6 1 9 9 Usample2 UxSample 4 4 1
        = Usample2 4 4 4 * (UxSample 5 4 4 - UxSample 4 4 4) / 1 ∧
      sources 1 4 0 1 2 3 4 5 6 1 9 9 Usample2 UxSample 4 4 2
        = Usample2 4 4 5 * (UxSample 5 4 4 - UxSample 4 4 4) / 1) ∧
    ((1:ℤ) ≠ 1 →
      sources 1 4 0 1 2 3 4 5 6 1 9 9 Usample2 UxSample 4 4 1
        = Usample2 4 4 4 * (UxSample 4 5 5 - UxSample 4 4 5) / 1 ∧
      sources 1 4 0 1 2 3 4 5 6 1 9 9 Usample2 UxSample 4 4 2
        = Usample2 4 4 5 * (UxSample 4 5 5 - UxSample 4 4 5) / 1) :=
  sources_momentum_components 1 4 0 1 2 3 4 5 6 1 9 9 Usample2 UxSample 4 4
    (by norm_num) (by norm_num)

/-- C1: RiemannSolver flux continuity — at every interface cell of the
computed range, if the left and right conservative states coincide (the
face-centered normal field is shared by construction) and the density is
positive, the flux `riemann_adiabatic` returns equals `consFlux` of that
state, exactly. -/
theorem riemann_flux_continuity (idir ng : ℤ)
    (idens ixmom iymom iener ixmag iymag irhoX nspec : ℕ)
    (lower_solid upper_solid : Bool) (gamma : ℝ) (qx qy : ℤ)
    (U_l U_r : ℤ → ℤ → ℕ → ℝ) (Bx By : ℤ → ℤ → ℝ) (i j : ℤ) (n : ℕ)
    (hrange : ng - 2 ≤ i ∧ i < qx - ng + 2 ∧ ng - 2 ≤ j ∧ j < qy - ng + 2)
    (hU : U_l i j = U_r i j) (hrho : 0 < U_l i j idens) :
    riemann_adiabatic idir ng idens ixmom iymom iener ixmag iymag irhoX nspec
      lower_solid upper_solid gamma qx qy U_l U_r Bx By i j n
      = consFlux idir gamma idens ixmom iymom iener ixmag iymag irhoX nspec (U_l i j) n := by
  have hcell : riemann_adiabatic idir ng idens ixmom iymom iener ixmag iymag irhoX nspec
      lower_solid upper_solid gamma qx qy U_l U_r Bx By i j n
      = Fcell ⟨idir, gamma, idens, ixmom, iymom, iener, ixmag, iymag, irhoX, nspec,
          U_l i j, U_r i j, Bx i j, By i j⟩ n := by
    simp only [riemann_adiabatic]
    rw [if_pos hrange]
  rw [hcell,
    Fcell_eq_f_l ⟨idir, gamma, idens, ixmom, iymom, iener, ixmag, iymag, irhoX, nspec,
      U_l i j, U_r i j, Bx i j, By i j⟩ hU hrho n]
  rfl

/-- C1 witness: a concrete interface with equal states and positive
density, inside the computed range for `ng = 4`, `qx = qy = 9`. -/
theorem riemann_flux_continuity_witness :
    riemann_adiabatic 1 4 0 1 2 3 4 5 6 0 true false 2 9 9
      UlSample UlSample (fun _ _ => 0) (fun _ _ => 0) 4 4 0
      = consFlux 1 2 0 1 2 3 4 5 6 0 (UlSample 4 4) 0 :=
  riemann_flux_continuity 1 4 0 1 2 3 4 5 6 0 true false 2 9 9
    UlSample UlSample (fun _ _ => 0) (fun _ _ => 0) 4 4 0
    (by norm_num) rfl (by norm_num [UlSample])

/-- C6: reconstruction of a uniform field is exact — for a spatially
uniform primitive field, every interior cell, every sweep direction and
every component, `states` returns left and right interface states equal
to the original cell value (the limited slope vanishes). -/
theorem states_uniform_exact (idir ng : ℤ) (dx dt : ℝ)
    (irho iu iv ip ibx iby ix nspec : ℕ) (gamma : ℝ) (qx qy : ℤ)
    (qv : ℤ → ℤ → ℕ → ℝ) (Bx By : ℤ → ℤ → ℝ) (q0 : ℕ → ℝ)
    (huni : ∀ i j, qv i j = q0) (i j : ℤ) (v : ℕ)
    (hi1 : ng ≤ i) (hi2 : i < qx - ng) (hj1 : ng ≤ j) (hj2 : j < qy - ng) :
    (states idir ng dx dt irho iu iv ip ibx iby ix nspec gamma qx qy qv Bx By).1 i j v = q0 v ∧
    (states idir ng dx dt irho iu iv ip ibx iby ix nspec gamma qx qy qv Bx By).2 i j v = q0 v := by
  have hdqc : ∀ i' j' v', dq_c idir qx qy qv i' j' v' = 0 := by
    intro i' j' v'
    unfold dq_c
    split <;> split <;> simp [huni]
  have hdq : ∀ i' j' v', dq idir ibx iby qx qy qv i' j' v' = 0 := by
    intro i' j' v'
    unfold dq
    split
    · rfl
    · rw [hdqc]
      simp [limslope, Real.sign_zero]
  constructor
  · simp only [states]
    split
    · rw [if_pos (by omega), hdq, huni]
      ring
    · rw [if_pos (by omega), hdq, huni]
      ring
  · simp only [states]
    rw [if_pos (by omega), hdq, huni]
    ring

/-- C6 witness: the uniform field `qvSample` is reconstructed exactly at
the interior cell `(4,4)` for `ng = 4`, `qx = qy = 9`. -/
theorem states_uniform_exact_witness :
    (states 1 4 0 0 0 1 2 3 4 5 6 0 2 9 9 qvSample (fun _ _ => 0) (fun _ _ => 0)).1 4 4 0
      = q0Sample 0 ∧
    (states 1 4 0 0 0 1 2 3 4 5 6 0 2 9 9 qvSample (fun _ _ => 0) (fun _ _ => 0)).2 4 4 0
      = q0Sample 0 :=
  states_uniform_exact 1 4 0 0 0 1 2 3 4 5 6 0 2 9 9 qvSample
    (fun _ _ => 0) (fun _ _ => 0) q0Sample (fun _ _ => rfl) 4 4 0
    (by norm_num) (by norm_num) (by norm_num) (by norm_num)

end

end Mhd
